import Mathlib

/-!
# Verification of the bioyino peer-replication core (`src/peer.rs`)

A shallow embedding of the peer-replication subsystem: the inbound native-protocol
server (`NativeProtocolServer::into_future` and `parse_and_send`), the periodic
snapshot coordinator (`NativeProtocolSnapshot::into_future`), and the per-peer
snapshot sender (`SnapshotSender::into_future`), together with the capnp reader
options (`CAPNP_READER_OPTIONS`) and the retry configuration
(`BackoffRetryBuilder { delay: 500, delay_mul: 2, delay_max: 5000, retries: 3 }`).

Conventions of the embedding:
* A metric value is opaque to this core (the spec places aggregation semantics out
  of scope), so definitions are polymorphic in the metric type `M`.
* A metric name is a raw byte string (`List UInt8`), as on the wire.
* The asynchronous stream combinators of `futures 0.1` are modelled by their
  sequential semantics: `Stream::for_each` processes items in order and terminates
  at the first item whose handler future resolves to an error; `join_all` fails if
  any joined future fails; `spawn` of a dispatch is recorded as an ordered event.
* Fallible Rust code returns `Except`/`Option`; the `unwrap` of the cyclic channel
  iterator is modelled by an explicit `panicked` outcome.
-/

namespace Bioyino

/-- A metric name on the wire: a raw byte string (peer-controlled, with no
encoding guarantee on the inbound path). -/
abbrev Name := List UInt8

/-- One worker's aggregated-state map, as gathered by `Task::TakeSnapshot`.
In `peer.rs` this is `Cache` (a hash map from name to metric); the embedding keeps
it as the list of its entries, which is what both the emptiness test
(`m.len() > 0`) and the flattening (`hmap.iter()`) observe. -/
abbrev Cache (M : Type) := List (Name × M)

/-- Decode error of a single metric record (`bioyino_metric::MetricError`):
`Metric::from_capnp` fails on a bad record, or `reader.which()` fails with
`NotInSchema`. -/
inductive MetricError
  | badRecord
  | capnpSchema
  deriving DecidableEq, Repr

/-- The error enum `PeerError` of `peer.rs` (constructors not used by any claim
are omitted; payloads irrelevant to the claims are dropped). -/
inductive PeerError
  | io
  | timer
  | taskSend
  | capnp
  | metric (e : MetricError)
  deriving DecidableEq, Repr

/-- The task variants of `crate::task::Task` consumed by this core.  The
`TakeSnapshot` reply channel is handled by the coordinator model below. -/
inductive Task (M : Type)
  | addMetric (name : Name) (metric : M)
  | addMetrics (metrics : List (Name × M))
  | addSnapshot (metrics : List (Name × M))
  deriving DecidableEq, Repr

/-- The state of a `message::Reader` after the frame itself decoded: the union
read by `reader.which()` in `parse_and_send`.  Each metric entry is the result of
`Metric::<Float>::from_capnp` on that entry — `Except.error` models one record
failing to decode.  `unknown` models `which()` returning `NotInSchema`. -/
inductive MsgReader (M : Type)
  | single (entry : Except MetricError (Name × M))
  | multi (entries : List (Except MetricError (Name × M)))
  | snapshot (entries : List (Except MetricError (Name × M)))
  | unknown

/-- A fully well-formed wire message (the `PeerMessage` envelope of the spec):
one of `Single`, `Multi`, `Snapshot` with all records decodable. -/
inductive PeerMessage (M : Type)
  | single (name : Name) (metric : M)
  | multi (entries : List (Name × M))
  | snapshot (entries : List (Name × M))
  deriving DecidableEq, Repr

/-- Embeds a well-formed message as the reader state in which every record
decodes cleanly. -/
def readerOfMessage {M : Type} : PeerMessage M → MsgReader M
  | .single n m => .single (.ok (n, m))
  | .multi es => .multi (es.map .ok)
  | .snapshot es => .snapshot (es.map .ok)

/-- The record-collection loop of `parse_and_send` for `Multi`/`Snapshot`:
`reader.iter().map(|r| Metric::from_capnp(r).map(|(n, m)| metrics.push((n, m)))).last()`
pushes every successfully decoded record and silently skips a record whose decode
fails. -/
def collect_records {M : Type} : List (Except MetricError (Name × M)) → List (Name × M)
  | [] => []
  | .ok e :: rest => e :: collect_records rest
  | .error _ :: rest => collect_records rest

/-- `parse_and_send` (peer.rs lines 130–174), without the channel send (dispatch
is recorded by the connection loop below): decides which `Task` one decoded frame
produces.  A `Single` whose record fails to decode propagates the error (the `?`
on `Metric::from_capnp`); a bad record inside `Multi`/`Snapshot` is skipped;
`which()` failing yields `CapnpSchema`. -/
def parse_and_send {M : Type} : MsgReader M → Except MetricError (Task M)
  | .single (.error e) => .error e
  | .single (.ok (n, m)) => .ok (.addMetric n m)
  | .multi rs => .ok (.addMetrics (collect_records rs))
  | .snapshot rs => .ok (.addSnapshot (collect_records rs))
  | .unknown => .error .capnpSchema

/-- How the receive loop of one connection ends. -/
inductive ConnOutcome
  | done
  | errored (e : PeerError)
  | panicked
  deriving DecidableEq, Repr

/-- The receive loop of one accepted connection
(`NativeProtocolServer::into_future`, lines 100–118), at cursor position `n` of
this connection's fresh cyclic channel iterator.  Each stream item is the result
of the capnp frame decode (`reader.map_err(PeerError::Capnp)?` and `get_root`);
a frame-level error ends the loop (`for_each` stops at the first stream error).
Then `chans.next().unwrap()` takes element `n % chans.length` of the channel
vector — `unwrap` on an empty vector is the `panicked` outcome.  A
`parse_and_send` error also ends the loop; a produced task is dispatched
(`spawn(next_chan.send(task))`) and recorded in spawn order. -/
def runConnectionAux {M C : Type} (chans : List C) :
    Nat → List (Except PeerError (MsgReader M)) → List (C × Task M) × ConnOutcome
  | _, [] => ([], .done)
  | n, frame :: rest =>
    match frame with
    | .error e => ([], .errored e)
    | .ok reader =>
      match chans[n % chans.length]? with
      | none => ([], .panicked)
      | some chan =>
        match parse_and_send reader with
        | .error e => ([], .errored (.metric e))
        | .ok task =>
          let r := runConnectionAux chans (n + 1) rest
          ((chan, task) :: r.1, r.2)

/-- One connection's processing: a fresh round-robin cursor starting at 0
(`chans.clone().into_iter().cycle()` is created per connection), then the receive
loop over the connection's decoded frames. -/
def runConnection {M C : Type} (chans : List C)
    (frames : List (Except PeerError (MsgReader M))) : List (C × Task M) × ConnOutcome :=
  runConnectionAux chans 0 frames

/-- The task a well-formed message is dispatched as (the variant mapping of
`parse_and_send`). -/
def taskOfMessage {M : Type} : PeerMessage M → Task M
  | .single n m => .addMetric n m
  | .multi es => .addMetrics es
  | .snapshot es => .addSnapshot es

/-! ## capnp reader options and decode bounds -/

/-- `capnp::message::ReaderOptions` (the two fields set by `peer.rs`). -/
structure ReaderOptions where
  traversal_limit_in_words : Nat
  nesting_limit : Nat
  deriving DecidableEq, Repr

/-- `CAPNP_READER_OPTIONS` (peer.rs line 26):
`ReaderOptions { traversal_limit_in_words: 8 * 1024 * 1024 * 1024, nesting_limit: 16 }`. -/
def CAPNP_READER_OPTIONS : ReaderOptions :=
  { traversal_limit_in_words := 8 * 1024 * 1024 * 1024, nesting_limit := 16 }

/-- The options every inbound stream is decoded with:
`ReadStream::new(conn, CAPNP_READER_OPTIONS)` (peer.rs line 92). -/
def serverReaderOptions : ReaderOptions := CAPNP_READER_OPTIONS

/-- The options the outbound sender's transport uses:
`Transport::new(conn, CAPNP_READER_OPTIONS)` (peer.rs line 285). -/
def senderReaderOptions : ReaderOptions := CAPNP_READER_OPTIONS

/-- A Cap'n Proto word is 8 bytes (fixed by the Cap'n Proto encoding; the
`ReaderOptions` traversal limit is counted in these words). -/
def capnpWordBytes : Nat := 8

/-- The size/depth shape of one incoming frame, as the capnp reader measures it:
total words traversed while reading the message, and maximum pointer nesting
depth. -/
structure FrameShape where
  totalWords : Nat
  depth : Nat
  deriving DecidableEq, Repr

/-- Frame-rejection errors of the capnp decode layer. -/
inductive ProtocolError
  | tooLarge
  | tooDeep
  deriving DecidableEq, Repr

/-- Modelled from the spec: the capnp decode layer itself is an external library
(not part of the supplied source); per the spec it "enforces two safety bounds
irrespective of stream origin: a maximum total traversal size per message and a
maximum structural nesting depth, rejecting any frame that exceeds either with
`ProtocolError::TooLarge` / `::TooDeep` rather than allocating unbounded
memory". -/
def checkFrameBounds (opts : ReaderOptions) (f : FrameShape) : Except ProtocolError Unit :=
  if opts.traversal_limit_in_words < f.totalWords then .error .tooLarge
  else if opts.nesting_limit < f.depth then .error .tooDeep
  else .ok ()

/-! ## UTF-8 and the snapshot encoder -/

/-- Is `b` a UTF-8 continuation byte (`10xxxxxx`)? -/
def utf8Cont (b : UInt8) : Bool := 0x80 ≤ b && b ≤ 0xBF

/-- RFC 3629 UTF-8 validity of a byte string: the safety precondition of Rust's
`std::str::from_utf8_unchecked` (an external library contract), which
`SnapshotSender` applies unchecked to every metric name (peer.rs line 298). -/
def validUtf8 : List UInt8 → Bool
  | [] => true
  | b :: rest =>
    if b ≤ 0x7F then validUtf8 rest
    else if 0xC2 ≤ b && b ≤ 0xDF then
      match rest with
      | c1 :: r => utf8Cont c1 && validUtf8 r
      | [] => false
    else if b == 0xE0 then
      match rest with
      | c1 :: c2 :: r => (0xA0 ≤ c1 && c1 ≤ 0xBF) && utf8Cont c2 && validUtf8 r
      | _ => false
    else if b == 0xED then
      match rest with
      | c1 :: c2 :: r => (0x80 ≤ c1 && c1 ≤ 0x9F) && utf8Cont c2 && validUtf8 r
      | _ => false
    else if 0xE1 ≤ b && b ≤ 0xEF then
      match rest with
      | c1 :: c2 :: r => utf8Cont c1 && utf8Cont c2 && validUtf8 r
      | _ => false
    else if b == 0xF0 then
      match rest with
      | c1 :: c2 :: c3 :: r => (0x90 ≤ c1 && c1 ≤ 0xBF) && utf8Cont c2 && utf8Cont c3 && validUtf8 r
      | _ => false
    else if 0xF1 ≤ b && b ≤ 0xF3 then
      match rest with
      | c1 :: c2 :: c3 :: r => utf8Cont c1 && utf8Cont c2 && utf8Cont c3 && validUtf8 r
      | _ => false
    else if b == 0xF4 then
      match rest with
      | c1 :: c2 :: c3 :: r => (0x80 ≤ c1 && c1 ≤ 0x8F) && utf8Cont c2 && utf8Cont c3 && validUtf8 r
      | _ => false
    else false

/-- The name conversion of the sender's encode loop (peer.rs line 298):
`let name = unsafe { ::std::str::from_utf8_unchecked(&name) }; c_metric.set_name(name)`.
The unchecked conversion is byte-preserving but only defined when the bytes are
valid UTF-8; the embedding makes the precondition explicit as `Option`. -/
def set_name (name : Name) : Option Name :=
  if validUtf8 name then some name else none

/-- Encodes the flattened entry sequence of the snapshot message builder loop
(peer.rs lines 292–302): each entry's name goes through `set_name` and its metric
through `fill_capnp` (opaque, metric kept as is).  `none` when any name violates
the UTF-8 precondition. -/
def encodeEntries {M : Type} : List (Name × M) → Option (List (Name × M))
  | [] => some []
  | (n, m) :: rest =>
    match set_name n with
    | none => none
    | some s => (encodeEntries rest).map (fun es => (s, m) :: es)

/-- `SnapshotSender::into_future` after connect success (peer.rs lines 284–304):
flattens all per-worker maps (`metrics.iter().flat_map(|hmap| hmap.iter())`) into
one sequence, builds ONE message with `init_snapshot(flat_len)`, and writes that
single frame (`codec.send(snapshot_message)`).  The result is the list of frames
written on the fresh connection. -/
def senderFrames {M : Type} (metrics : List (Cache M)) : Option (List (PeerMessage M)) :=
  (encodeEntries (metrics.flatMap id)).map (fun es => [PeerMessage.snapshot es])

/-! ## Snapshot coordinator -/

/-- One round's gather phase (`NativeProtocolSnapshot::into_future`,
peer.rs lines 204–221): one `TakeSnapshot` oneshot per worker channel, then
`join_all(metrics)` — a dropped reply channel (`none`) fails the join with
`PeerError::TaskSend` — then `metrics.retain(|m| m.len() > 0)` and `Arc::new`.
The result is the round's shared `LocalSnapshot`. -/
def gatherSnapshot {M : Type} (replies : List (Option (Cache M))) :
    Except PeerError (List (Cache M)) :=
  if replies.all fun r => r.isSome then
    .ok ((replies.filterMap id).filter fun c => 0 < c.length)
  else
    .error .taskSend

/-- A resolved peer address (`SocketAddr` after `try_resolve`); opaque here. -/
abbrev Addr := String

/-- One full round (one timer tick, peer.rs lines 200–241): gather the
`LocalSnapshot`, then for every configured node spawn one retried
`SnapshotSender` over the shared snapshot.  On a gather failure the `and_then`
never runs: no sender is spawned for any peer.  For each peer the frames its
sender would write on a successful connection are recorded
(`none` inside marks the UTF-8 encode precondition failing). -/
def roundSends {M : Type} (replies : List (Option (Cache M))) (nodes : List Addr) :
    Except PeerError (List (Addr × Option (List (PeerMessage M)))) :=
  (gatherSnapshot replies).map fun metrics =>
    nodes.map fun a => (a, senderFrames metrics)

/-- The coordinator loop (`timer.for_each`, peer.rs lines 200–242): rounds run
in tick order, and `Stream::for_each` terminates with the error of the first
round whose future fails — a failed gather ends the whole coordinator future, so
no later tick is processed. -/
def runCoordinator {M : Type} (nodes : List Addr) :
    List (List (Option (Cache M))) →
      List (Except PeerError (List (Addr × Option (List (PeerMessage M)))))
  | [] => []
  | tick :: rest =>
    match roundSends tick nodes with
    | .error e => [.error e]
    | .ok sends => .ok sends :: runCoordinator nodes rest

/-! ## Retry policy -/

/-- The retry configuration type of `crate::util::BackoffRetryBuilder`, as
instantiated at peer.rs line 232 (`delay_mul` is integral in the reference
configuration, so it is kept as `Nat`). -/
structure BackoffRetryBuilder where
  delay : Nat
  delay_mul : Nat
  delay_max : Nat
  retries : Nat
  deriving DecidableEq, Repr

/-- The retry configuration the coordinator builds for every peer sender
(peer.rs line 232):
`BackoffRetryBuilder { delay: 500, delay_mul: 2f32, delay_max: 5000, retries: 3 }`. -/
def peer_client_ret : BackoffRetryBuilder :=
  { delay := 500, delay_mul := 2, delay_max := 5000, retries := 3 }

/-- Modelled from the spec: `BackoffRetryBuilder::spawn` (in `crate::util`, not
part of the supplied source).  Per the spec, the delay before attempt `k` (k ≥ 1)
is `min(initial_delay * multiplier^(k-1), max_delay)`. -/
def retryDelay (b : BackoffRetryBuilder) (k : Nat) : Nat :=
  min (b.delay * b.delay_mul ^ (k - 1)) b.delay_max

/-- The observable trace of one retried operation: final result, number of
attempts actually performed, the delay taken before each attempt, and how many
of the performed attempts failed. -/
structure RetryTrace (E : Type) where
  result : Except E Unit
  attempts : Nat
  delays : List Nat
  failures : Nat

/-- Modelled from the spec: the retry loop of `BackoffRetryBuilder::spawn`
(in `crate::util`, not part of the supplied source).  Per the spec: attempts are
numbered from 1; success on any attempt short-circuits the remaining retries;
"after `max_attempts` consecutive failures, the policy yields the last failure to
the caller and performs no further attempts".  `op k` is the outcome of the k-th
invocation of the wrapped operation (the operation may be invoked more than
once: at-least-once semantics). -/
def runRetryFrom {E : Type} (b : BackoffRetryBuilder) (op : Nat → Except E Unit) :
    Nat → Nat → RetryTrace E
  | _, 0 => { result := .ok (), attempts := 0, delays := [], failures := 0 }
  | k, left + 1 =>
    match op k with
    | .ok _ => { result := .ok (), attempts := 1, delays := [retryDelay b k], failures := 0 }
    | .error e =>
      if left = 0 then
        { result := .error e, attempts := 1, delays := [retryDelay b k], failures := 1 }
      else
        let t := runRetryFrom b op (k + 1) left
        { result := t.result, attempts := t.attempts + 1,
          delays := retryDelay b k :: t.delays, failures := t.failures + 1 }

/-- Run the retry policy: up to `b.retries` attempts starting at attempt 1. -/
def runRetry {E : Type} (b : BackoffRetryBuilder) (op : Nat → Except E Unit) : RetryTrace E :=
  runRetryFrom b op 1 b.retries

/-! ## The process-wide error counter -/

/-- How much one round increments the process-wide `PEER_ERRORS` atomic counter.
The source has exactly two `PEER_ERRORS.fetch_add(1, ...)` sites: one in the
gather `map_err` (peer.rs line 215, once when `join_all` fails), and one in each
`SnapshotSender`'s `map_err` (peer.rs line 310, once per failed send attempt —
every retry attempt runs a fresh `SnapshotSender` future).  `peerOps` gives each
configured peer's per-attempt send outcomes. -/
def roundErrorIncrements {M : Type} (b : BackoffRetryBuilder)
    (replies : List (Option (Cache M))) (peerOps : List (Nat → Except PeerError Unit)) : Nat :=
  match gatherSnapshot replies with
  | .error _ => 1
  | .ok _ => (peerOps.map fun op => (runRetry b op).failures).sum

/-! ## Helper lemmas -/

theorem collect_records_map_ok {M : Type} (es : List (Name × M)) :
    collect_records (es.map Except.ok) = es := by
  induction es with
  | nil => rfl
  | cons e rest ih => simp [collect_records, ih]

theorem collect_records_skip {M : Type} (e : MetricError)
    (rs : List (Except MetricError (Name × M))) :
    collect_records (Except.error e :: rs) = collect_records rs := rfl

theorem parse_and_send_readerOfMessage {M : Type} (m : PeerMessage M) :
    parse_and_send (readerOfMessage m) = Except.ok (taskOfMessage m) := by
  cases m with
  | single n v => rfl
  | multi es => simp [readerOfMessage, parse_and_send, taskOfMessage, collect_records_map_ok]
  | snapshot es => simp [readerOfMessage, parse_and_send, taskOfMessage, collect_records_map_ok]

theorem runConnectionAux_ne_panicked {M C : Type} (chans : List C) (h : chans ≠ []) :
    ∀ (n : Nat) (frames : List (Except PeerError (MsgReader M))),
      (runConnectionAux chans n frames).2 ≠ ConnOutcome.panicked := by
  intro n frames
  induction frames generalizing n with
  | nil => simp [runConnectionAux]
  | cons frame rest ih =>
    cases frame with
    | error e => simp [runConnectionAux]
    | ok reader =>
      have hlt : n % chans.length < chans.length :=
        Nat.mod_lt _ (List.length_pos.mpr h)
      have hget : chans[n % chans.length]? = some (chans.get ⟨n % chans.length, hlt⟩) := by
        simp [List.getElem?_eq_getElem hlt]
      cases hp : parse_and_send reader with
      | error e => simp [runConnectionAux, hget, hp]
      | ok task => simpa [runConnectionAux, hget, hp] using ih (n + 1)

theorem runConnectionAux_clean {M C : Type} (chans : List C) (h : chans ≠ [])
    (msgs : List (PeerMessage M)) :
    ∀ n : Nat,
      (runConnectionAux chans n (msgs.map fun m => Except.ok (readerOfMessage m))).2 =
          ConnOutcome.done ∧
      (runConnectionAux chans n (msgs.map fun m => Except.ok (readerOfMessage m))).1.length =
          msgs.length ∧
      ∀ j : Nat,
        (runConnectionAux chans n (msgs.map fun m => Except.ok (readerOfMessage m))).1[j]? =
          msgs[j]?.bind fun m =>
            (chans[(n + j) % chans.length]?).map fun ch => (ch, taskOfMessage m) := by
  induction msgs with
  | nil => intro n; simp [runConnectionAux]
  | cons m rest ih =>
    intro n
    have hlt : n % chans.length < chans.length := Nat.mod_lt _ (List.length_pos.mpr h)
    have hget : chans[n % chans.length]? = some (chans.get ⟨n % chans.length, hlt⟩) := by
      simp [List.getElem?_eq_getElem hlt]
    obtain ⟨ih1, ih2, ih3⟩ := ih (n + 1)
    refine ⟨?_, ?_, ?_⟩
    · simpa [runConnectionAux, hget, parse_and_send_readerOfMessage] using ih1
    · simpa [runConnectionAux, hget, parse_and_send_readerOfMessage] using ih2
    · intro j
      cases j with
      | zero =>
        simp [runConnectionAux, hget, parse_and_send_readerOfMessage]
      | succ j =>
        have harith : n + (j + 1) = (n + 1) + j := by omega
        simpa [runConnectionAux, hget, parse_and_send_readerOfMessage, harith] using ih3 j

theorem runConnectionAux_range {M : Type} (K : Nat) (hK : 0 < K)
    (msgs : List (PeerMessage M)) :
    ∀ n : Nat,
      runConnectionAux (List.range K) n (msgs.map fun m => Except.ok (readerOfMessage m)) =
        ((msgs.enumFrom n).map fun p => (p.1 % K, taskOfMessage p.2), ConnOutcome.done) := by
  induction msgs with
  | nil => intro n; simp [runConnectionAux]
  | cons m rest ih =>
    intro n
    have hlt : n % K < K := Nat.mod_lt _ hK
    have hget : (List.range K)[n % K]? = some (n % K) := by
      simp [List.getElem?_range hlt]
    simp [runConnectionAux, hget, parse_and_send_readerOfMessage, List.enumFrom_cons, ih (n + 1)]

theorem count_mod_range (K c : Nat) (hK : 0 < K) (hc : c < K) :
    ∀ N : Nat, ((List.range N).filter fun n => n % K == c).length =
      N / K + if c < N % K then 1 else 0 := by
  intro N
  induction N with
  | zero => simp
  | succ N ih =>
    have hsing : (List.filter (fun n => n % K == c) [N]).length = if N % K = c then 1 else 0 := by
      by_cases hmc : N % K = c <;> simp [List.filter_cons, hmc]
    rw [List.range_succ, List.filter_append, List.length_append, ih, hsing]
    have hr : N % K < K := Nat.mod_lt _ hK
    have hqr : K * (N / K) + N % K = N := Nat.div_add_mod N K
    by_cases hcase : N % K + 1 = K
    · have hexp : K * (N / K + 1) = K * (N / K) + K := by ring
      have hN1 : N + 1 = K * (N / K + 1) := by omega
      have hdiv : (N + 1) / K = N / K + 1 := by
        rw [hN1, Nat.mul_div_cancel_left _ hK]
      have hmod : (N + 1) % K = 0 := by
        rw [hN1, Nat.mul_mod_right]
      rw [hdiv, hmod]
      split_ifs <;> omega
    · have hlt : N % K + 1 < K := by omega
      have hN1 : N + 1 = (N % K + 1) + K * (N / K) := by omega
      have hdiv : (N + 1) / K = N / K := by
        rw [hN1, Nat.add_mul_div_left _ _ hK, Nat.div_eq_of_lt hlt, Nat.zero_add]
      have hmod : (N + 1) % K = N % K + 1 := by
        rw [hN1, Nat.add_mul_mod_self_left, Nat.mod_eq_of_lt hlt]
      rw [hdiv, hmod]
      split_ifs <;> omega

theorem runConnectionAux_batch {M C : Type} (chans : List C) (h : chans ≠ []) :
    ∀ frames : List (MsgReader M),
      (∀ f ∈ frames,
        (∃ es, f = MsgReader.multi es) ∨ (∃ es, f = MsgReader.snapshot es)) →
      ∀ n : Nat,
        (runConnectionAux chans n (frames.map Except.ok)).2 = ConnOutcome.done ∧
        (runConnectionAux chans n (frames.map Except.ok)).1.length = frames.length := by
  intro frames
  induction frames with
  | nil => intro _ n; simp [runConnectionAux]
  | cons f rest ih =>
    intro hbatch n
    have hlt : n % chans.length < chans.length := Nat.mod_lt _ (List.length_pos.mpr h)
    have hget : chans[n % chans.length]? = some (chans.get ⟨n % chans.length, hlt⟩) := by
      simp [List.getElem?_eq_getElem hlt]
    obtain ⟨ih1, ih2⟩ := ih (fun g hg => hbatch g (List.mem_cons_of_mem f hg)) (n + 1)
    rcases hbatch f (List.mem_cons_self f rest) with ⟨es, rfl⟩ | ⟨es, rfl⟩ <;>
      exact ⟨by simp [runConnectionAux, hget, parse_and_send, ih1],
        by simp [runConnectionAux, hget, parse_and_send, ih2]⟩

theorem gatherSnapshot_map_some {M : Type} (replies : List (Cache M)) :
    gatherSnapshot (replies.map some) =
      Except.ok (replies.filter fun c => 0 < c.length) := by
  simp [gatherSnapshot, List.all_map, List.filterMap_map, Function.comp]

theorem gatherSnapshot_of_drop {M : Type} (replies : List (Option (Cache M)))
    (hdrop : none ∈ replies) :
    gatherSnapshot replies = Except.error PeerError.taskSend := by
  have hall : replies.all (fun r => r.isSome) = false := by
    rw [Bool.eq_false_iff]
    intro hcontra
    have := List.all_eq_true.mp hcontra none hdrop
    simp at this
  simp [gatherSnapshot, hall]

theorem flatMap_filter_nonempty {M : Type} :
    ∀ replies : List (Cache M),
      (replies.filter fun c => 0 < c.length).flatMap id = replies.flatMap id := by
  intro replies
  induction replies with
  | nil => rfl
  | cons c rest ih =>
    by_cases hc : 0 < c.length
    · simp [List.filter_cons, hc, ih]
    · have hnil : c = [] := List.length_eq_zero.mp (by omega)
      subst hnil
      simp [List.filter_cons, ih]

theorem encodeEntries_of_valid {M : Type} :
    ∀ l : List (Name × M), (∀ p ∈ l, validUtf8 p.1 = true) → encodeEntries l = some l := by
  intro l
  induction l with
  | nil => intro _; rfl
  | cons p rest ih =>
    intro hv
    have hp : validUtf8 p.1 = true := hv p (List.mem_cons_self p rest)
    have hrest : encodeEntries rest = some rest :=
      ih (fun q hq => hv q (List.mem_cons_of_mem p hq))
    cases p with
    | mk n m => simp [encodeEntries, set_name, hp, hrest]

theorem encodeEntries_isSome_iff {M : Type} :
    ∀ l : List (Name × M),
      (encodeEntries l).isSome = true ↔ ∀ p ∈ l, validUtf8 p.1 = true := by
  intro l
  induction l with
  | nil => simp [encodeEntries]
  | cons p rest ih =>
    cases p with
    | mk n m =>
      by_cases hv : validUtf8 n = true
      · simp [encodeEntries, set_name, hv, ih]
      · simp [encodeEntries, set_name, hv]

/-! ## Claim theorems -/

/-- C3 counterexample: the claim's traversal ceiling of "approximately 8 GiB" is
wrong — the configured limit is 8 Gi *words*, and a Cap'n Proto word is 8 bytes.
Concretely, a frame of 4 Gi words (= 32 GiB, four times the claimed ceiling)
passes the bounds check instead of being rejected. -/
theorem c3_counterexample :
    checkFrameBounds serverReaderOptions { totalWords := 4 * 1024 * 1024 * 1024, depth := 1 } =
      Except.ok () ∧
    4 * 1024 * 1024 * 1024 * capnpWordBytes = 32 * 1024 * 1024 * 1024 ∧
    ¬ 4 * 1024 * 1024 * 1024 * capnpWordBytes ≤ 8 * 1024 * 1024 * 1024 := by
  refine ⟨by rfl, by norm_num [capnpWordBytes], by norm_num [capnpWordBytes]⟩

/-- C3 (amended): every inbound stream is decoded with CAPNP_READER_OPTIONS,
which bounds total traversal by 8 Gi words (= 64 GiB) per message and structural
nesting depth by 16; a frame is accepted exactly when it satisfies both bounds,
an oversized frame is rejected with TooLarge, and a too-deep frame within the
size bound is rejected with TooDeep. -/
theorem c3_decoder_bounds :
    serverReaderOptions = CAPNP_READER_OPTIONS ∧
    CAPNP_READER_OPTIONS.traversal_limit_in_words = 8 * 1024 * 1024 * 1024 ∧
    CAPNP_READER_OPTIONS.traversal_limit_in_words * capnpWordBytes = 64 * 1024 * 1024 * 1024 ∧
    CAPNP_READER_OPTIONS.nesting_limit = 16 ∧
    ∀ f : FrameShape,
      (checkFrameBounds serverReaderOptions f = Except.ok () ↔
        f.totalWords ≤ 8 * 1024 * 1024 * 1024 ∧ f.depth ≤ 16) ∧
      (checkFrameBounds serverReaderOptions f = Except.error ProtocolError.tooLarge ↔
        8 * 1024 * 1024 * 1024 < f.totalWords) ∧
      (checkFrameBounds serverReaderOptions f = Except.error ProtocolError.tooDeep ↔
        f.totalWords ≤ 8 * 1024 * 1024 * 1024 ∧ 16 < f.depth) := by
  refine ⟨rfl, rfl, by norm_num [capnpWordBytes, CAPNP_READER_OPTIONS], rfl, fun f => ?_⟩
  simp only [checkFrameBounds, serverReaderOptions, CAPNP_READER_OPTIONS]
  split_ifs with hbig hdeep <;> simp_all

/-- C4: under the reference configuration (three attempts, 500 ms initial delay,
multiplier 2, 5000 ms cap), the delay before attempt k is
min(500 * 2^(k-1), 5000); a peer whose send fails on every attempt gets exactly
three attempts with delays 500/1000/2000 ms and the policy yields the last
failure; success on any attempt short-circuits the remaining retries. -/
theorem c4_retry_policy {E : Type} (op : Nat → Except E Unit) :
    (∀ k : Nat, retryDelay peer_client_ret k = min (500 * 2 ^ (k - 1)) 5000) ∧
    ((∀ k : Nat, ∃ e : E, op k = Except.error e) →
      (runRetry peer_client_ret op).attempts = 3 ∧
      (runRetry peer_client_ret op).delays = [500, 1000, 2000] ∧
      (runRetry peer_client_ret op).result = op 3) ∧
    (∀ j : Nat, 1 ≤ j → j ≤ 3 → op j = Except.ok () →
      (runRetry peer_client_ret op).attempts ≤ j) := by
  refine ⟨fun k => rfl, ?_, ?_⟩
  · intro hfail
    obtain ⟨e1, h1⟩ := hfail 1
    obtain ⟨e2, h2⟩ := hfail 2
    obtain ⟨e3, h3⟩ := hfail 3
    refine ⟨?_, ?_, ?_⟩ <;>
      simp [runRetry, runRetryFrom, h1, h2, h3, retryDelay, peer_client_ret]
  · intro j hj1 hj3 hok
    interval_cases j
    · simp [runRetry, runRetryFrom, hok, peer_client_ret]
    · cases ho1 : op 1 with
      | ok v => simp [runRetry, runRetryFrom, ho1, peer_client_ret]
      | error e => simp [runRetry, runRetryFrom, ho1, hok, peer_client_ret]
    · cases ho1 : op 1 with
      | ok v => simp [runRetry, runRetryFrom, ho1, peer_client_ret]
      | error e =>
        cases ho2 : op 2 with
        | ok v => simp [runRetry, runRetryFrom, ho1, ho2, peer_client_ret]
        | error e2 => simp [runRetry, runRetryFrom, ho1, ho2, hok, peer_client_ret]

/-- C4 witness: an operation failing on every attempt (error value = attempt
number) performs exactly three attempts with delays 500/1000/2000 ms. -/
theorem c4_retry_policy_witness :
    (runRetry peer_client_ret (fun k => (Except.error k : Except Nat Unit))).attempts = 3 ∧
    (runRetry peer_client_ret (fun k => (Except.error k : Except Nat Unit))).delays =
      [500, 1000, 2000] :=
  ⟨((c4_retry_policy (fun k => (Except.error k : Except Nat Unit))).2.1
      (fun k => ⟨k, rfl⟩)).1,
    ((c4_retry_policy (fun k => (Except.error k : Except Nat Unit))).2.1
      (fun k => ⟨k, rfl⟩)).2.1⟩

/-- C6: with a nonempty channel vector, the receive loop dispatches exactly one
task per decoded frame — Single to AddMetric with that name and value, Multi to
AddMetrics with the batch's entries, Snapshot to AddSnapshot with the snapshot's
entries — frame j going to channel j mod K, in arrival order. -/
theorem c6_dispatch_per_frame {M C : Type} (chans : List C) (h : chans ≠ [])
    (msgs : List (PeerMessage M)) :
    (∀ (n : Name) (v : M), taskOfMessage (PeerMessage.single n v) = Task.addMetric n v) ∧
    (∀ es : List (Name × M), taskOfMessage (PeerMessage.multi es) = Task.addMetrics es) ∧
    (∀ es : List (Name × M), taskOfMessage (PeerMessage.snapshot es) = Task.addSnapshot es) ∧
    (∀ m : PeerMessage M, parse_and_send (readerOfMessage m) = Except.ok (taskOfMessage m)) ∧
    (runConnection chans (msgs.map fun m => Except.ok (readerOfMessage m))).2 =
      ConnOutcome.done ∧
    (runConnection chans (msgs.map fun m => Except.ok (readerOfMessage m))).1.length =
      msgs.length ∧
    ∀ j : Nat,
      (runConnection chans (msgs.map fun m => Except.ok (readerOfMessage m))).1[j]? =
        msgs[j]?.bind fun m =>
          (chans[j % chans.length]?).map fun ch => (ch, taskOfMessage m) := by
  obtain ⟨h1, h2, h3⟩ := runConnectionAux_clean chans h msgs 0
  exact ⟨fun n v => rfl, fun es => rfl, fun es => rfl, parse_and_send_readerOfMessage,
    h1, h2, fun j => by simpa using h3 j⟩

/-- C6 witness: the spec scenario — a Multi frame with 3 entries then a Snapshot
frame with 2 entries on one connection with 1 worker channel produce AddMetrics
then AddSnapshot, in that order, on that channel. -/
theorem c6_dispatch_per_frame_witness :
    (runConnection [0]
        ([PeerMessage.multi (M := Nat) [([0x61], 1), ([0x62], 2), ([0x63], 3)],
          PeerMessage.snapshot [([0x64], 4), ([0x65], 5)]].map
          fun m => Except.ok (readerOfMessage m))).2 = ConnOutcome.done ∧
    (runConnection [0]
        ([PeerMessage.multi (M := Nat) [([0x61], 1), ([0x62], 2), ([0x63], 3)],
          PeerMessage.snapshot [([0x64], 4), ([0x65], 5)]].map
          fun m => Except.ok (readerOfMessage m))).1[0]? =
      some (0, Task.addMetrics [([0x61], 1), ([0x62], 2), ([0x63], 3)]) ∧
    (runConnection [0]
        ([PeerMessage.multi (M := Nat) [([0x61], 1), ([0x62], 2), ([0x63], 3)],
          PeerMessage.snapshot [([0x64], 4), ([0x65], 5)]].map
          fun m => Except.ok (readerOfMessage m))).1[1]? =
      some (0, Task.addSnapshot [([0x64], 4), ([0x65], 5)]) := by
  refine ⟨(c6_dispatch_per_frame [0] (by simp) _).2.2.2.2.1, ?_, ?_⟩
  · simpa using (c6_dispatch_per_frame [0] (by simp)
      [PeerMessage.multi (M := Nat) [([0x61], 1), ([0x62], 2), ([0x63], 3)],
        PeerMessage.snapshot [([0x64], 4), ([0x65], 5)]]).2.2.2.2.2.2 0
  · simpa using (c6_dispatch_per_frame [0] (by simp)
      [PeerMessage.multi (M := Nat) [([0x61], 1), ([0x62], 2), ([0x63], 3)],
        PeerMessage.snapshot [([0x64], 4), ([0x65], 5)]]).2.2.2.2.2.2 1

/-- C7: per connection the round-robin cursor starts fresh at 0, the j-th decoded
frame goes to channel j mod K independent of message content, and over N frames a
channel c receives N/K + (1 if c < N mod K) dispatches, which is N/K or N/K + 1,
in arrival order. -/
theorem c7_round_robin_fairness {M : Type} (K c : Nat) (hK : 0 < K) (hc : c < K)
    (msgs : List (PeerMessage M)) :
    (runConnection (List.range K) (msgs.map fun m => Except.ok (readerOfMessage m))).1 =
      (msgs.enumFrom 0).map (fun p => (p.1 % K, taskOfMessage p.2)) ∧
    ((runConnection (List.range K) (msgs.map fun m => Except.ok (readerOfMessage m))).1.filter
        fun d => d.1 == c).length =
      msgs.length / K + (if c < msgs.length % K then 1 else 0) ∧
    msgs.length / K ≤
      ((runConnection (List.range K) (msgs.map fun m => Except.ok (readerOfMessage m))).1.filter
        fun d => d.1 == c).length ∧
    ((runConnection (List.range K) (msgs.map fun m => Except.ok (readerOfMessage m))).1.filter
        fun d => d.1 == c).length ≤ msgs.length / K + 1 := by
  have h1 : (runConnection (List.range K) (msgs.map fun m => Except.ok (readerOfMessage m))).1 =
      (msgs.enumFrom 0).map fun p => (p.1 % K, taskOfMessage p.2) := by
    simp [runConnection, runConnectionAux_range K hK msgs 0]
  have hcount : ((runConnection (List.range K)
        (msgs.map fun m => Except.ok (readerOfMessage m))).1.filter
        fun d => d.1 == c).length =
      msgs.length / K + (if c < msgs.length % K then 1 else 0) := by
    rw [h1, List.filter_map, List.length_map]
    have hcomp : (((fun d : Nat × Task M => d.1 == c) ∘
        fun p : Nat × PeerMessage M => (p.1 % K, taskOfMessage p.2))) =
        fun p : Nat × PeerMessage M => p.1 % K == c := rfl
    rw [hcomp]
    have hfst : ((msgs.enumFrom 0).filter fun p => p.1 % K == c).length =
        (((msgs.enumFrom 0).map Prod.fst).filter fun n => n % K == c).length := by
      rw [List.filter_map, List.length_map]
      rfl
    rw [hfst, List.enumFrom_map_fst, ← List.range_eq_range', count_mod_range K c hK hc]
  refine ⟨h1, hcount, ?_, ?_⟩ <;> rw [hcount] <;> split_ifs <;> omega

/-- C7 witness: 3 frames over 2 channels — channel 0 receives 2 dispatches
(3/2 + 1) and channel 1 receives 1. -/
theorem c7_round_robin_fairness_witness :
    ((runConnection (List.range 2)
        ([PeerMessage.single ([0x61] : Name) (1 : Nat), PeerMessage.single [0x62] 2,
          PeerMessage.single [0x63] 3].map fun m => Except.ok (readerOfMessage m))).1.filter
        fun d => d.1 == 0).length = 2 ∧
    ((runConnection (List.range 2)
        ([PeerMessage.single ([0x61] : Name) (1 : Nat), PeerMessage.single [0x62] 2,
          PeerMessage.single [0x63] 3].map fun m => Except.ok (readerOfMessage m))).1.filter
        fun d => d.1 == 1).length = 1 := by
  constructor
  · have h := (c7_round_robin_fairness 2 0 (by norm_num) (by norm_num)
      [PeerMessage.single ([0x61] : Name) (1 : Nat), PeerMessage.single [0x62] 2,
        PeerMessage.single [0x63] 3]).2.1
    simpa using h
  · have h := (c7_round_robin_fairness 2 1 (by norm_num) (by norm_num)
      [PeerMessage.single ([0x61] : Name) (1 : Nat), PeerMessage.single [0x62] 2,
        PeerMessage.single [0x63] 3]).2.1
    simpa using h

/-- C10: with an empty worker-channel vector, the first decoded frame of any
connection hits the unwrap of the empty cyclic iterator and panics; with any
nonempty channel vector, that unwrap never fails on any frame sequence. -/
theorem c10_empty_chans_panic {M C : Type} :
    (∀ (reader : MsgReader M) (rest : List (Except PeerError (MsgReader M))),
      (runConnection ([] : List C) (Except.ok reader :: rest)).2 = ConnOutcome.panicked) ∧
    (∀ chans : List C, chans ≠ [] →
      ∀ frames : List (Except PeerError (MsgReader M)),
        (runConnection chans frames).2 ≠ ConnOutcome.panicked) := by
  constructor
  · intro reader rest
    simp [runConnection, runConnectionAux]
  · intro chans h frames
    exact runConnectionAux_ne_panicked chans h 0 frames

/-- C10 witness: with no channels the first frame panics; with one channel the
same frame does not. -/
theorem c10_empty_chans_panic_witness :
    (runConnection ([] : List Nat)
        [Except.ok (MsgReader.single (M := Nat) (Except.ok ([0x61], 1)))]).2 =
      ConnOutcome.panicked ∧
    (runConnection [7]
        [Except.ok (MsgReader.single (M := Nat) (Except.ok ([0x61], 1)))]).2 ≠
      ConnOutcome.panicked :=
  ⟨c10_empty_chans_panic.1 _ _,
    c10_empty_chans_panic.2 [7] (by simp) _⟩

/-- C2 counterexample: a record-level decode error in a Single frame DOES end the
connection's receive loop — the stream errors and the following well-formed frame
is never dispatched. -/
theorem c2_counterexample :
    (runConnection [0]
        [Except.ok (MsgReader.single (M := Nat) (Except.error MetricError.badRecord)),
          Except.ok (MsgReader.single (Except.ok ([0x61], 42)))]).1 = [] ∧
    (runConnection [0]
        [Except.ok (MsgReader.single (M := Nat) (Except.error MetricError.badRecord)),
          Except.ok (MsgReader.single (Except.ok ([0x61], 42)))]).2 =
      ConnOutcome.errored (PeerError.metric MetricError.badRecord) :=
  ⟨rfl, rfl⟩

/-- C2 (amended): a record-level decode error inside a Multi/Snapshot batch does
not close the connection — the bad entry is skipped, the good entries around it
are kept, and every frame of the connection is still decoded and dispatched; a
record decode error in a Single frame, by contrast, ends the receive loop. -/
theorem c2_batch_errors_skipped {M C : Type} (chans : List C) (h : chans ≠ [])
    (frames : List (MsgReader M))
    (hbatch : ∀ f ∈ frames,
      (∃ es, f = MsgReader.multi es) ∨ (∃ es, f = MsgReader.snapshot es)) :
    (runConnection chans (frames.map Except.ok)).2 = ConnOutcome.done ∧
    (runConnection chans (frames.map Except.ok)).1.length = frames.length ∧
    (∀ (e : MetricError) (rs : List (Except MetricError (Name × M))),
      collect_records (Except.error e :: rs) = collect_records rs) ∧
    (∀ (nm : Name × M) (rs : List (Except MetricError (Name × M))),
      collect_records (Except.ok nm :: rs) = nm :: collect_records rs) := by
  obtain ⟨h1, h2⟩ := runConnectionAux_batch chans h frames hbatch 0
  exact ⟨h1, h2, fun e rs => rfl, fun nm rs => rfl⟩

/-- C2 witness: a Multi batch with one bad record followed by a Snapshot frame —
both frames are dispatched, the bad entry is dropped, the good one kept. -/
theorem c2_batch_errors_skipped_witness :
    (runConnection [0]
        ([MsgReader.multi (M := Nat) [Except.error MetricError.badRecord, Except.ok ([0x61], 1)],
          MsgReader.snapshot [Except.ok ([0x62], 2)]].map Except.ok)).2 = ConnOutcome.done ∧
    (runConnection [0]
        ([MsgReader.multi (M := Nat) [Except.error MetricError.badRecord, Except.ok ([0x61], 1)],
          MsgReader.snapshot [Except.ok ([0x62], 2)]].map Except.ok)).1.length = 2 ∧
    collect_records (M := Nat)
      [Except.error MetricError.badRecord, Except.ok ([0x61], 1)] = [([0x61], 1)] := by
  have h := c2_batch_errors_skipped (M := Nat) [0] (by simp)
    [MsgReader.multi [Except.error MetricError.badRecord, Except.ok ([0x61], 1)],
      MsgReader.snapshot [Except.ok ([0x62], 2)]]
    (by
      intro f hf
      simp only [List.mem_cons, List.not_mem_nil, or_false] at hf
      rcases hf with rfl | rfl
      · exact Or.inl ⟨_, rfl⟩
      · exact Or.inr ⟨_, rfl⟩)
  exact ⟨h.1, h.2.1, rfl⟩

/-- C5: after a fully successful gather, the round's LocalSnapshot is exactly the
non-empty per-worker maps; the sender writes exactly one Snapshot frame on its
fresh connection whose entries are the flattening of those maps into one ordered
sequence; and the discarded empty maps contribute no entries. -/
theorem c5_single_snapshot_frame {M : Type} (replies : List (Cache M))
    (hnames : ∀ p ∈ replies.flatMap id, validUtf8 p.1 = true) :
    gatherSnapshot (replies.map some) =
      Except.ok (replies.filter fun c => 0 < c.length) ∧
    senderFrames (replies.filter fun c => 0 < c.length) =
      some [PeerMessage.snapshot ((replies.filter fun c => 0 < c.length).flatMap id)] ∧
    (replies.filter fun c => 0 < c.length).flatMap id = replies.flatMap id := by
  have hflat : (replies.filter fun c => 0 < c.length).flatMap id = replies.flatMap id :=
    flatMap_filter_nonempty replies
  have henc : encodeEntries ((replies.filter fun c => 0 < c.length).flatMap id) =
      some ((replies.filter fun c => 0 < c.length).flatMap id) :=
    encodeEntries_of_valid _ (by rw [hflat]; exact hnames)
  exact ⟨gatherSnapshot_map_some replies,
    by simp only [senderFrames, henc, Option.map_some'], hflat⟩

/-- C5 witness: three worker replies, the middle one empty — the sender's single
Snapshot frame holds the two entries of the non-empty maps, in order. -/
theorem c5_single_snapshot_frame_witness :
    gatherSnapshot ([[(([0x61] : Name), (1 : Nat))], [], [([0x62], 2)]].map some) =
      Except.ok [[(([0x61] : Name), (1 : Nat))], [([0x62], 2)]] ∧
    senderFrames ([[(([0x61] : Name), (1 : Nat))], [], [([0x62], 2)]].filter
        fun c => 0 < c.length) =
      some [PeerMessage.snapshot [(([0x61] : Name), (1 : Nat)), ([0x62], 2)]] := by
  have h := c5_single_snapshot_frame [[(([0x61] : Name), (1 : Nat))], [], [([0x62], 2)]]
    (by decide)
  exact ⟨by simpa using h.1, by simpa using h.2.1⟩

/-- C9: the sender's encode step applies Rust's unchecked UTF-8 conversion to
every metric name, so the snapshot encode is defined exactly when every name in
the flattened LocalSnapshot is valid UTF-8 — while the inbound path dispatches
metric names that are arbitrary peer-controlled bytes with no validity check
(here the invalid byte string 0xFF is accepted and dispatched unchanged). -/
theorem c9_utf8_precondition {M : Type} (metrics : List (Cache M)) :
    ((senderFrames metrics).isSome = true ↔
      ∀ p ∈ metrics.flatMap id, validUtf8 p.1 = true) ∧
    validUtf8 [0xFF] = false ∧
    (∀ v : M, parse_and_send (MsgReader.single (Except.ok ([0xFF], v))) =
      Except.ok (Task.addMetric [0xFF] v)) := by
  refine ⟨?_, by decide, fun v => rfl⟩
  have := encodeEntries_isSome_iff (metrics.flatMap id)
  simpa [senderFrames] using this

/-- C1 counterexample: a round whose gather fails (a dropped TakeSnapshot reply)
terminates the coordinator's timer stream with TaskSend — the well-formed second
tick never starts a round, contrary to the claim that the next tick still runs. -/
theorem c1_counterexample :
    runCoordinator ["peer-a"]
        [[(none : Option (Cache Nat))], [some [([0x61], 1)]]] =
      [Except.error PeerError.taskSend] :=
  rfl

/-- C1 (amended): if any worker's TakeSnapshot reply channel is dropped, the
round fails with TaskSend before any sender is spawned, so no Snapshot frame is
produced for any peer in that round; the error ends the coordinator's timer
stream, so later ticks are not processed (restarting is left to the owner of the
coordinator future). -/
theorem c1_barrier_failure {M : Type} (replies : List (Option (Cache M)))
    (hdrop : none ∈ replies) (nodes : List Addr)
    (rest : List (List (Option (Cache M)))) :
    gatherSnapshot replies = Except.error PeerError.taskSend ∧
    roundSends replies nodes = Except.error PeerError.taskSend ∧
    runCoordinator nodes (replies :: rest) = [Except.error PeerError.taskSend] := by
  have hg : gatherSnapshot replies = Except.error PeerError.taskSend :=
    gatherSnapshot_of_drop replies hdrop
  have hr : roundSends (M := M) replies nodes = Except.error PeerError.taskSend := by
    simp [roundSends, hg, Except.map]
  exact ⟨hg, hr, by simp [runCoordinator, hr]⟩

/-- C1 witness: one worker whose reply is dropped, one peer, one later tick —
the round aborts with TaskSend and the later tick is never processed. -/
theorem c1_barrier_failure_witness :
    gatherSnapshot [(none : Option (Cache Nat))] = Except.error PeerError.taskSend ∧
    runCoordinator ["peer-a"]
        [[(none : Option (Cache Nat))], [some [([0x61], 1)]]] =
      [Except.error PeerError.taskSend] := by
  have h := c1_barrier_failure [(none : Option (Cache Nat))] (by simp)
    ["peer-a"] [[some [([0x61], 1)]]]
  exact ⟨h.1, h.2.2⟩

/-- C8 counterexample: a round with no peers configured and a dropped reply shows
the counter incrementing by 1 while the total number of peer-send failures is 0 —
so the counter is not incremented only on peer-send failures. -/
theorem c8_counterexample :
    roundErrorIncrements (M := Nat) peer_client_ret [none] [] = 1 ∧
    (([] : List (Nat → Except PeerError Unit)).map
        fun op => (runRetry peer_client_ret op).failures).sum = 0 :=
  ⟨rfl, rfl⟩

/-- C8 (amended): when the gather succeeds the counter increments exactly once
per failed send attempt (summed over peers) — a peer unreachable on every
attempt contributes exactly max_attempts = 3 — and when the round aborts at the
gather barrier the counter increments exactly once. -/
theorem c8_error_counter {M : Type} (replies : List (Cache M))
    (drops : List (Option (Cache M))) (hdrop : none ∈ drops)
    (peerOps : List (Nat → Except PeerError Unit)) :
    roundErrorIncrements peer_client_ret (replies.map some) peerOps =
      (peerOps.map fun op => (runRetry peer_client_ret op).failures).sum ∧
    roundErrorIncrements peer_client_ret drops peerOps = 1 ∧
    (∀ op : Nat → Except PeerError Unit, (∀ k, ∃ e, op k = Except.error e) →
      (runRetry peer_client_ret op).failures = 3) := by
  refine ⟨?_, ?_, ?_⟩
  · simp [roundErrorIncrements, gatherSnapshot_map_some replies]
  · simp [roundErrorIncrements, gatherSnapshot_of_drop drops hdrop]
  · intro op hfail
    obtain ⟨e1, h1⟩ := hfail 1
    obtain ⟨e2, h2⟩ := hfail 2
    obtain ⟨e3, h3⟩ := hfail 3
    simp [runRetry, runRetryFrom, h1, h2, h3, peer_client_ret]

/-- C8 witness: one never-reachable peer and a successful gather increment the
counter by exactly 3; a dropped reply increments it by exactly 1. -/
theorem c8_error_counter_witness :
    roundErrorIncrements (M := Nat) peer_client_ret [some [([0x61], 1)]]
        [fun _ => Except.error PeerError.io] = 3 ∧
    roundErrorIncrements (M := Nat) peer_client_ret [none]
        [fun _ => Except.error PeerError.io] = 1 := by
  have h := c8_error_counter (M := Nat) [[([0x61], 1)]] [none] (by simp)
    [fun _ => Except.error PeerError.io]
  refine ⟨?_, h.2.1⟩
  have h3 := h.2.2 (fun _ => Except.error PeerError.io) (fun k => ⟨PeerError.io, rfl⟩)
  rw [show ([some [(([0x61] : Name), (1 : Nat))]] : List (Option (Cache Nat))) =
    [[(([0x61] : Name), (1 : Nat))]].map some from rfl, h.1]
  simp [h3]

end Bioyino
